import Mathlib

/-!
# bouncing_ball: the physics step `update_pva` and the driver loop of `main`

Shallow embedding of `src/main.cpp`.

Number model.
* `double` is embedded as `ℚ` with exact arithmetic: every decimal literal of the
  source (`0.1`, `0.5`, `0.95`, `9.81`, `10.0`, `1.0`) denotes the decimal fraction it
  spells; rounding, infinities and NaN are not part of the model.
* `int num_bounces` is embedded as `Int`. The only `int` operation of the source is
  `--num_bounces`, which is exact on every `int` except `INT_MIN`; the driver only ever
  holds values in `-1 .. 200`.
* `std::size_t num_contact_steps` is embedded as `Nat`; `++` is taken modulo
  `SIZE_T_MOD = 2 ^ 64` (unsigned arithmetic wraps).

`update_pva` mutates its arguments in place; here the four mutated variables form a
`State`, and each block of the function body is one state transformer, composed in
source order.
-/

namespace BouncingBall

/-! ## Constants (main.cpp lines 9-18, 55-56) -/

/-- Line 9: `static const constexpr double ROLLING_ATTENUATION_FACTOR = 0.95;` -/
def ROLLING_ATTENUATION_FACTOR : ℚ := 0.95

/-- Line 10: `static const constexpr double BOUNCE_ATTENUATION_FACTOR = 0.5;` -/
def BOUNCE_ATTENUATION_FACTOR : ℚ := 0.5

/-- Line 11: `static const constexpr int MAX_NUM_BOUNCES = 200;` -/
def MAX_NUM_BOUNCES : Int := 200

/-- Line 12: `static const constexpr double G = 9.81;` -/
def G : ℚ := 9.81

/-- Line 13: the pair `P0`, initialised with `0.0, 0.0`. -/
def P0 : ℚ × ℚ := (0, 0)

/-- Line 14: the pair `V0`, initialised with `10.0, 10.0`. -/
def V0 : ℚ × ℚ := (10, 10)

/-- Line 18: `static const constexpr std::size_t X_WALL = 49;` -/
def X_WALL : Nat := 49

/-- Line 55: `static const constexpr double DT = 0.1;` (local to `update_pva`). -/
def DT : ℚ := 0.1

/-- Line 56: `static const constexpr double ROLLING_NUM_STEPS_THRESHOLD = 2;` (local to
`update_pva`). -/
def ROLLING_NUM_STEPS_THRESHOLD : ℚ := 2

/-- Number of values of `std::size_t` (64-bit): `++` on a `size_t` is addition modulo this. -/
def SIZE_T_MOD : Nat := 2 ^ 64

/-! ## State -/

/-- The four variables `update_pva` receives by mutable reference. -/
structure State where
  /-- Position `p` (`first` = x, `second` = y). -/
  p : ℚ × ℚ
  /-- Velocity `v`. -/
  v : ℚ × ℚ
  /-- Remaining bounce budget `num_bounces`. -/
  num_bounces : Int
  /-- Consecutive near-floor steps `num_contact_steps`. -/
  num_contact_steps : Nat
deriving DecidableEq

/-! ## `update_pva`, block by block (main.cpp lines 48-105) -/

/-- Lines 58-64: velocity and position update. The position uses the saved `v0`. -/
def integrate (s : State) (a : ℚ × ℚ) : State :=
  let v0 := s.v
  let v : ℚ × ℚ := (s.v.1 + a.1 * DT, s.v.2 + a.2 * DT)
  let p : ℚ × ℚ :=
    (s.p.1 + v0.1 * DT + 0.5 * a.1 * DT * DT, s.p.2 + v0.2 * DT + 0.5 * a.2 * DT * DT)
  { s with p := p, v := v }

/-- Lines 66-71: the wall at `x = 0`. -/
def near_wall (s : State) : State :=
  if s.p.1 < 0 ∧ s.v.1 < 0 then
    { s with v := (s.v.1 * -BOUNCE_ATTENUATION_FACTOR, s.v.2), p := (0, s.p.2) }
  else s

/-- Lines 73-78: the wall at `x = X_WALL`. -/
def far_wall (s : State) : State :=
  if s.p.1 > (X_WALL : ℚ) ∧ s.v.1 > 0 then
    { s with v := (s.v.1 * -BOUNCE_ATTENUATION_FACTOR, s.v.2), p := ((X_WALL : ℚ), s.p.2) }
  else s

/-- Lines 80-86: the floor. -/
def floor_collision (s : State) : State :=
  if s.p.2 < 0 ∧ s.v.2 < 0 then
    { s with v := (s.v.1, s.v.2 * -BOUNCE_ATTENUATION_FACTOR), p := (s.p.1, 0),
             num_bounces := s.num_bounces - 1 }
  else s

/-- Lines 88-95: near-floor tracking. -/
def contact_tracking (s : State) : State :=
  if s.p.2 < 1 then
    { s with num_contact_steps := (s.num_contact_steps + 1) % SIZE_T_MOD }
  else
    { s with num_contact_steps := 0 }

/-- Lines 97-103: rolling. The counter is converted to `double` for the comparison with
the `double` constant 2; the conversion does not change on which side of 2 it lies. -/
def rolling (s : State) : State :=
  if (s.num_contact_steps : ℚ) > ROLLING_NUM_STEPS_THRESHOLD then
    { s with v := (s.v.1 * ROLLING_ATTENUATION_FACTOR, s.v.2 * ROLLING_ATTENUATION_FACTOR),
             num_contact_steps := 0 }
  else s

/-- State after lines 58-86: integration followed by the three collision blocks. -/
def collide (s : State) (a : ℚ × ℚ) : State :=
  floor_collision (far_wall (near_wall (integrate s a)))

/-- The whole body of `update_pva`. -/
def update_pva (s : State) (a : ℚ × ℚ) : State :=
  rolling (contact_tracking (collide s a))

/-! ## Which branch is taken in a call -/

/-- The condition of line 67 holds in the call `update_pva s a`. -/
def near_wall_fires (s : State) (a : ℚ × ℚ) : Prop :=
  (integrate s a).p.1 < 0 ∧ (integrate s a).v.1 < 0

/-- The condition of line 74 holds in the call `update_pva s a`. -/
def far_wall_fires (s : State) (a : ℚ × ℚ) : Prop :=
  (near_wall (integrate s a)).p.1 > (X_WALL : ℚ) ∧ (near_wall (integrate s a)).v.1 > 0

/-- The condition of line 81 holds in the call `update_pva s a`. -/
def floor_fires (s : State) (a : ℚ × ℚ) : Prop :=
  (far_wall (near_wall (integrate s a))).p.2 < 0 ∧ (far_wall (near_wall (integrate s a))).v.2 < 0

/-- The condition of line 98 holds in the call `update_pva s a`. -/
def rolling_fires (s : State) (a : ℚ × ℚ) : Prop :=
  ((contact_tracking (collide s a)).num_contact_steps : ℚ) > ROLLING_NUM_STEPS_THRESHOLD

instance (s : State) (a : ℚ × ℚ) : Decidable (near_wall_fires s a) := by
  unfold near_wall_fires; infer_instance

instance (s : State) (a : ℚ × ℚ) : Decidable (far_wall_fires s a) := by
  unfold far_wall_fires; infer_instance

instance (s : State) (a : ℚ × ℚ) : Decidable (floor_fires s a) := by
  unfold floor_fires; infer_instance

instance (s : State) (a : ℚ × ℚ) : Decidable (rolling_fires s a) := by
  unfold rolling_fires; infer_instance

/-! ## The driver (main.cpp lines 29-46) -/

/-- Line 36: the acceleration `a` of the run, initialised with `0.0, -G`. -/
def a_run : ℚ × ℚ := (0, -G)

/-- Lines 32-35: the state `main` starts from. -/
def init : State :=
  { p := P0, v := V0, num_bounces := MAX_NUM_BOUNCES, num_contact_steps := 0 }

/-- State after `n` successive calls `update_pva(p, v, a, num_bounces, num_contact_steps)`. -/
def run_steps (a : ℚ × ℚ) : Nat → State → State
  | 0, s => s
  | n + 1, s => run_steps a n (update_pva s a)

/-- Lines 39-43: the loop `while (num_bounces >= 0)` around `update_pva(...); draw_grid(p);`
with a bound on the number of iterations; `none` when the bound is reached with the guard
still true.
`draw_grid` only prints and leaves the state alone. -/
def main_loop : Nat → State → Option State
  | 0, s => if s.num_bounces ≥ 0 then none else some s
  | fuel + 1, s =>
    if s.num_bounces ≥ 0 then main_loop fuel (update_pva s a_run) else some s

/-- Number of floor-bounce events (line 81 taken) in the first `n` calls from `s`. -/
def floor_bounces (a : ℚ × ℚ) : Nat → State → Nat
  | 0, _ => 0
  | n + 1, s => (if floor_fires s a then 1 else 0) + floor_bounces a n (update_pva s a)

/-- Positions handed to `draw_grid` (line 42) by the loop of lines 39-43 in its first `fuel`
iterations from `s`: the position left by each call of `update_pva`. -/
def drawn_positions : Nat → State → List (ℚ × ℚ)
  | 0, _ => []
  | fuel + 1, s =>
    if s.num_bounces ≥ 0 then
      (update_pva s a_run).p :: drawn_positions fuel (update_pva s a_run)
    else []

/-- The loop of lines 39-43 with the acceleration of line 36 as a parameter `a`;
`main_loop` is the instance `a = a_run`. -/
def main_loop_with (a : ℚ × ℚ) : Nat → State → Option State
  | 0, s => if s.num_bounces ≥ 0 then none else some s
  | fuel + 1, s =>
    if s.num_bounces ≥ 0 then main_loop_with a fuel (update_pva s a) else some s

/-- The room: `0 ≤ x ≤ X_WALL` and `y ≥ 0`. -/
def in_room (q : ℚ × ℚ) : Prop :=
  0 ≤ q.1 ∧ q.1 ≤ (X_WALL : ℚ) ∧ 0 ≤ q.2

instance (q : ℚ × ℚ) : Decidable (in_room q) := by
  unfold in_room; infer_instance

/-- A wall block and the floor block are both entered in the call `update_pva s a`. -/
def wall_and_floor_fire (s : State) (a : ℚ × ℚ) : Prop :=
  (near_wall_fires s a ∨ far_wall_fires s a) ∧ floor_fires s a

instance (s : State) (a : ℚ × ℚ) : Decidable (wall_and_floor_fire s a) := by
  unfold wall_and_floor_fire; infer_instance

/-! ## Evaluation helpers

`run_strict` computes the same states as `run_steps`, but rebuilds every number of the
state from its evaluated numerator and denominator after each call, so that a long run
can be evaluated without nesting the calls. -/

/-- Evaluate `n`, then continue with it. -/
def forceNat {α : Type} (n : Nat) (k : Nat → α) : α :=
  match n with
  | 0 => k 0
  | m + 1 => k (m + 1)

/-- Evaluate `i`, then continue with it. -/
def forceInt {α : Type} (i : Int) (k : Int → α) : α :=
  match i with
  | Int.ofNat n => forceNat n fun m => k (Int.ofNat m)
  | Int.negSucc n => forceNat n fun m => k (Int.negSucc m)

/-- Evaluate `q`, then continue with it. -/
def forceRat {α : Type} (q : ℚ) (k : ℚ → α) : α :=
  forceInt q.num fun n => forceNat q.den fun d => k (mkRat n d)

/-- Evaluate every component of `s`, then continue with it. -/
def forceState {α : Type} (s : State) (k : State → α) : α :=
  forceRat s.p.1 fun px => forceRat s.p.2 fun py =>
  forceRat s.v.1 fun vx => forceRat s.v.2 fun vy =>
  forceInt s.num_bounces fun nb => forceNat s.num_contact_steps fun nc =>
  k ⟨(px, py), (vx, vy), nb, nc⟩

/-- The states of `run_steps`, each evaluated before the next call. -/
def run_strict (a : ℚ × ℚ) : Nat → State → State
  | 0, s => s
  | n + 1, s => forceState (update_pva s a) (run_strict a n)

/-- Whether `P` holds at the state before each of the first `n` calls from `s`, each state
evaluated before the next call. -/
def all_strict (a : ℚ × ℚ) (P : State → Bool) : Nat → State → Bool
  | 0, _ => true
  | n + 1, s => P s && forceState (update_pva s a) (all_strict a P n)

end BouncingBall

namespace BouncingBall

/-! ## The blocks of `update_pva`, field by field -/

theorem integrate_p (s : State) (a : ℚ × ℚ) :
    (integrate s a).p =
      (s.p.1 + s.v.1 * DT + 0.5 * a.1 * DT * DT, s.p.2 + s.v.2 * DT + 0.5 * a.2 * DT * DT) :=
  rfl

theorem integrate_v (s : State) (a : ℚ × ℚ) :
    (integrate s a).v = (s.v.1 + a.1 * DT, s.v.2 + a.2 * DT) :=
  rfl

theorem integrate_num_bounces (s : State) (a : ℚ × ℚ) :
    (integrate s a).num_bounces = s.num_bounces :=
  rfl

theorem integrate_num_contact_steps (s : State) (a : ℚ × ℚ) :
    (integrate s a).num_contact_steps = s.num_contact_steps :=
  rfl

theorem near_wall_p2 (s : State) : (near_wall s).p.2 = s.p.2 := by
  unfold near_wall; split_ifs <;> rfl

theorem near_wall_v2 (s : State) : (near_wall s).v.2 = s.v.2 := by
  unfold near_wall; split_ifs <;> rfl

theorem near_wall_num_bounces (s : State) : (near_wall s).num_bounces = s.num_bounces := by
  unfold near_wall; split_ifs <;> rfl

theorem near_wall_num_contact_steps (s : State) :
    (near_wall s).num_contact_steps = s.num_contact_steps := by
  unfold near_wall; split_ifs <;> rfl

theorem far_wall_p2 (s : State) : (far_wall s).p.2 = s.p.2 := by
  unfold far_wall; split_ifs <;> rfl

theorem far_wall_v2 (s : State) : (far_wall s).v.2 = s.v.2 := by
  unfold far_wall; split_ifs <;> rfl

theorem far_wall_num_bounces (s : State) : (far_wall s).num_bounces = s.num_bounces := by
  unfold far_wall; split_ifs <;> rfl

theorem far_wall_num_contact_steps (s : State) :
    (far_wall s).num_contact_steps = s.num_contact_steps := by
  unfold far_wall; split_ifs <;> rfl

theorem floor_collision_p1 (s : State) : (floor_collision s).p.1 = s.p.1 := by
  unfold floor_collision; split_ifs <;> rfl

theorem floor_collision_v1 (s : State) : (floor_collision s).v.1 = s.v.1 := by
  unfold floor_collision; split_ifs <;> rfl

theorem floor_collision_num_contact_steps (s : State) :
    (floor_collision s).num_contact_steps = s.num_contact_steps := by
  unfold floor_collision; split_ifs <;> rfl

/-- The floor test of line 81 reads the y-components the integration produced: the wall
blocks only write x-components. -/
theorem floor_fires_iff (s : State) (a : ℚ × ℚ) :
    floor_fires s a ↔ (integrate s a).p.2 < 0 ∧ (integrate s a).v.2 < 0 := by
  unfold floor_fires
  rw [far_wall_p2, far_wall_v2, near_wall_p2, near_wall_v2]

/-- The far-wall test never succeeds after the near-wall block has clamped `p.x` to 0. -/
theorem far_wall_fires_iff (s : State) (a : ℚ × ℚ) :
    far_wall_fires s a ↔
      (integrate s a).p.1 > (X_WALL : ℚ) ∧ (integrate s a).v.1 > 0 := by
  unfold far_wall_fires near_wall
  split_ifs with h
  · constructor
    · rintro ⟨h1, -⟩
      simp [X_WALL] at h1
      linarith
    · rintro ⟨h1, -⟩
      simp [X_WALL] at h1
      linarith [h.1]
  · rfl

theorem collide_num_contact_steps (s : State) (a : ℚ × ℚ) :
    (collide s a).num_contact_steps = s.num_contact_steps := by
  unfold collide
  rw [floor_collision_num_contact_steps, far_wall_num_contact_steps,
    near_wall_num_contact_steps, integrate_num_contact_steps]

theorem collide_num_bounces (s : State) (a : ℚ × ℚ) :
    (collide s a).num_bounces = if floor_fires s a then s.num_bounces - 1 else s.num_bounces := by
  unfold collide floor_collision floor_fires
  split_ifs <;>
    simp [far_wall_num_bounces, near_wall_num_bounces, integrate_num_bounces]

theorem collide_p2 (s : State) (a : ℚ × ℚ) :
    (collide s a).p.2 = if floor_fires s a then 0 else (integrate s a).p.2 := by
  unfold collide floor_collision floor_fires
  split_ifs <;> simp [far_wall_p2, near_wall_p2]

theorem collide_v2 (s : State) (a : ℚ × ℚ) :
    (collide s a).v.2 =
      if floor_fires s a then (integrate s a).v.2 * -BOUNCE_ATTENUATION_FACTOR
      else (integrate s a).v.2 := by
  unfold collide floor_collision floor_fires
  split_ifs <;> simp [far_wall_v2, near_wall_v2]

theorem near_wall_of_fires (s : State) (a : ℚ × ℚ) (h : near_wall_fires s a) :
    near_wall (integrate s a) =
      { integrate s a with
        v := ((integrate s a).v.1 * -BOUNCE_ATTENUATION_FACTOR, (integrate s a).v.2),
        p := (0, (integrate s a).p.2) } :=
  if_pos h

theorem near_wall_of_not_fires (s : State) (a : ℚ × ℚ) (h : ¬ near_wall_fires s a) :
    near_wall (integrate s a) = integrate s a :=
  if_neg h

theorem far_wall_of_fires (s : State) (a : ℚ × ℚ) (h : far_wall_fires s a) :
    far_wall (near_wall (integrate s a)) =
      { near_wall (integrate s a) with
        v := ((near_wall (integrate s a)).v.1 * -BOUNCE_ATTENUATION_FACTOR,
          (near_wall (integrate s a)).v.2),
        p := ((X_WALL : ℚ), (near_wall (integrate s a)).p.2) } :=
  if_pos h

theorem far_wall_of_not_fires (s : State) (a : ℚ × ℚ) (h : ¬ far_wall_fires s a) :
    far_wall (near_wall (integrate s a)) = near_wall (integrate s a) :=
  if_neg h

/-- The two wall tests cannot both succeed in one call. -/
theorem not_far_of_near (s : State) (a : ℚ × ℚ) (h : near_wall_fires s a) :
    ¬ far_wall_fires s a := by
  rw [far_wall_fires_iff]
  rintro ⟨h1, -⟩
  simp [X_WALL] at h1
  linarith [h.1]

theorem collide_p1 (s : State) (a : ℚ × ℚ) :
    (collide s a).p.1 =
      if near_wall_fires s a then 0
      else if far_wall_fires s a then (X_WALL : ℚ) else (integrate s a).p.1 := by
  unfold collide
  rw [floor_collision_p1]
  by_cases hn : near_wall_fires s a
  · rw [if_pos hn, far_wall_of_not_fires s a (not_far_of_near s a hn), near_wall_of_fires s a hn]
  · rw [if_neg hn]
    by_cases hf : far_wall_fires s a
    · rw [if_pos hf, far_wall_of_fires s a hf]
    · rw [if_neg hf, far_wall_of_not_fires s a hf, near_wall_of_not_fires s a hn]

theorem collide_v1 (s : State) (a : ℚ × ℚ) :
    (collide s a).v.1 =
      if near_wall_fires s a ∨ far_wall_fires s a then
        (integrate s a).v.1 * -BOUNCE_ATTENUATION_FACTOR
      else (integrate s a).v.1 := by
  unfold collide
  rw [floor_collision_v1]
  by_cases hn : near_wall_fires s a
  · rw [if_pos (Or.inl hn), far_wall_of_not_fires s a (not_far_of_near s a hn),
      near_wall_of_fires s a hn]
  · by_cases hf : far_wall_fires s a
    · rw [if_pos (Or.inr hf), far_wall_of_fires s a hf, near_wall_of_not_fires s a hn]
    · rw [if_neg (not_or.mpr ⟨hn, hf⟩), far_wall_of_not_fires s a hf,
        near_wall_of_not_fires s a hn]

theorem update_pva_p (s : State) (a : ℚ × ℚ) : (update_pva s a).p = (collide s a).p := by
  unfold update_pva rolling contact_tracking
  split_ifs <;> rfl

theorem update_pva_num_bounces (s : State) (a : ℚ × ℚ) :
    (update_pva s a).num_bounces =
      if floor_fires s a then s.num_bounces - 1 else s.num_bounces := by
  rw [← collide_num_bounces]
  unfold update_pva rolling contact_tracking
  split_ifs <;> rfl

theorem update_pva_v (s : State) (a : ℚ × ℚ) :
    (update_pva s a).v =
      if rolling_fires s a then
        ((collide s a).v.1 * ROLLING_ATTENUATION_FACTOR,
          (collide s a).v.2 * ROLLING_ATTENUATION_FACTOR)
      else (collide s a).v := by
  unfold update_pva rolling rolling_fires
  split_ifs <;> (unfold contact_tracking; split_ifs <;> rfl)

theorem update_pva_num_contact_steps (s : State) (a : ℚ × ℚ) :
    (update_pva s a).num_contact_steps =
      if rolling_fires s a then 0 else (contact_tracking (collide s a)).num_contact_steps := by
  unfold update_pva rolling rolling_fires
  split_ifs <;> rfl

theorem contact_tracking_num_contact_steps (s : State) (a : ℚ × ℚ) :
    (contact_tracking (collide s a)).num_contact_steps =
      if (collide s a).p.2 < 1 then (s.num_contact_steps + 1) % SIZE_T_MOD else 0 := by
  unfold contact_tracking
  split_ifs <;> simp [collide_num_contact_steps]

end BouncingBall

namespace BouncingBall

/-! ## Runs -/

theorem forceNat_eq {α : Type} (n : Nat) (k : Nat → α) : forceNat n k = k n := by
  cases n <;> rfl

theorem forceInt_eq {α : Type} (i : Int) (k : Int → α) : forceInt i k = k i := by
  cases i <;> simp [forceInt, forceNat_eq]

theorem forceRat_eq {α : Type} (q : ℚ) (k : ℚ → α) : forceRat q k = k q := by
  simp [forceRat, forceInt_eq, forceNat_eq, Rat.mkRat_self]

theorem forceState_eq {α : Type} (s : State) (k : State → α) : forceState s k = k s := by
  simp [forceState, forceRat_eq, forceInt_eq, forceNat_eq]

theorem run_strict_eq (a : ℚ × ℚ) (n : Nat) (s : State) :
    run_strict a n s = run_steps a n s := by
  induction n generalizing s with
  | zero => rfl
  | succ n ih => simp [run_strict, run_steps, forceState_eq, ih]

/-- The run of `main` reaches, after 21 calls, a state on the floor with two contact steps
counted. -/
theorem run_steps_21 :
    run_steps a_run 21 init = ⟨(21, 0), (10, 5.3005), 199, 2⟩ := by
  rw [← run_strict_eq]
  decide!

/-! ## C1: integration when no collision block is entered -/

/-- C1 (counterexample): the state `main` is in after 21 calls, `p = (21, 0)`,
`v = (10, 5.3005)`, contact counter 2. The 22nd call enters none of the three collision
blocks, yet the velocity it leaves is not `(vx, vy - G*DT)`: the rolling block has scaled
it. -/
theorem c1_counterexample_rolling_after_integration :
    run_steps a_run 21 init = ⟨(21, 0), (10, 5.3005), 199, 2⟩ ∧
    ¬ near_wall_fires ⟨(21, 0), (10, 5.3005), 199, 2⟩ a_run ∧
    ¬ far_wall_fires ⟨(21, 0), (10, 5.3005), 199, 2⟩ a_run ∧
    ¬ floor_fires ⟨(21, 0), (10, 5.3005), 199, 2⟩ a_run ∧
    (update_pva ⟨(21, 0), (10, 5.3005), 199, 2⟩ a_run).v ≠ (10, 5.3005 - G * DT) ∧
    (update_pva ⟨(21, 0), (10, 5.3005), 199, 2⟩ a_run).v = (9.5, 4.103525) := by
  refine ⟨run_steps_21, ?_, ?_, ?_, ?_, ?_⟩ <;> decide!

/-- C1 (amended): for every `g`, under `a = (0, -g)`, a call of `update_pva` that enters
none of the three collision blocks leaves the position
`(p0.x + vx*DT, p0.y + vy*DT - 0.5*g*DT^2)`; it leaves the velocity `(vx, vy - g*DT)` when
the rolling block is not entered, and `0.95` times that on both axes when it is. -/
theorem c1_integration_without_collision (s : State) (g : ℚ)
    (hn : ¬ near_wall_fires s (0, -g)) (hf : ¬ far_wall_fires s (0, -g))
    (hfl : ¬ floor_fires s (0, -g)) :
    (update_pva s (0, -g)).p =
      (s.p.1 + s.v.1 * DT, s.p.2 + s.v.2 * DT - 0.5 * g * DT ^ 2) ∧
    (¬ rolling_fires s (0, -g) → (update_pva s (0, -g)).v = (s.v.1, s.v.2 - g * DT)) ∧
    (rolling_fires s (0, -g) →
      (update_pva s (0, -g)).v = (0.95 * s.v.1, 0.95 * (s.v.2 - g * DT))) := by
  have hp1 := collide_p1 s (0, -g)
  rw [if_neg hn, if_neg hf] at hp1
  have hp2 := collide_p2 s (0, -g)
  rw [if_neg hfl] at hp2
  have hv1 := collide_v1 s (0, -g)
  rw [if_neg (not_or.mpr ⟨hn, hf⟩)] at hv1
  have hv2 := collide_v2 s (0, -g)
  rw [if_neg hfl] at hv2
  rw [integrate_p] at hp1 hp2
  rw [integrate_v] at hv1 hv2
  refine ⟨?_, ?_, ?_⟩
  · rw [update_pva_p]
    apply Prod.ext
    · rw [hp1]; simp
    · rw [hp2]; simp; ring
  · intro hr
    rw [update_pva_v, if_neg hr]
    apply Prod.ext
    · rw [hv1]; simp
    · rw [hv2]; simp; ring
  · intro hr
    rw [update_pva_v, if_pos hr]
    apply Prod.ext
    · simp only [hv1, ROLLING_ATTENUATION_FACTOR]; ring
    · simp only [hv2, ROLLING_ATTENUATION_FACTOR]; ring

/-- C1 (witness): the first call of the run, from `init` with `g = G`, enters no collision
block and not the rolling block. -/
theorem c1_integration_without_collision_witness :
    (¬ near_wall_fires init (0, -G) ∧ ¬ far_wall_fires init (0, -G) ∧
      ¬ floor_fires init (0, -G)) ∧
    ((update_pva init (0, -G)).p =
        (init.p.1 + init.v.1 * DT, init.p.2 + init.v.2 * DT - 0.5 * G * DT ^ 2) ∧
      (¬ rolling_fires init (0, -G) →
        (update_pva init (0, -G)).v = (init.v.1, init.v.2 - G * DT)) ∧
      (rolling_fires init (0, -G) →
        (update_pva init (0, -G)).v = (0.95 * init.v.1, 0.95 * (init.v.2 - G * DT)))) :=
  ⟨⟨by decide!, by decide!, by decide!⟩,
    c1_integration_without_collision init G (by decide!) (by decide!) (by decide!)⟩

end BouncingBall

namespace BouncingBall

/-! ## C2: the floor bounce -/

/-- C2 (counterexample): a ball at rest on the floor with contact counter 2, under
`a = (0, -G)`. The floor test succeeds with pre-collision `v.y = -0.981`, but the call
leaves `v.y = 0.465975 = 0.95 * 0.4905`, not `-0.5 * -0.981 = 0.4905`: the rolling block
runs in the same call. -/
theorem c2_counterexample_bounce_then_rolling :
    floor_fires ⟨(0, 0), (0, 0), 200, 2⟩ a_run ∧
    (integrate ⟨(0, 0), (0, 0), 200, 2⟩ a_run).v.2 = -0.981 ∧
    (update_pva ⟨(0, 0), (0, 0), 200, 2⟩ a_run).v.2 ≠
      -0.5 * (integrate ⟨(0, 0), (0, 0), 200, 2⟩ a_run).v.2 ∧
    (update_pva ⟨(0, 0), (0, 0), 200, 2⟩ a_run).v.2 = 0.465975 := by
  refine ⟨?_, ?_, ?_, ?_⟩ <;> decide!

/-- C2 (amended): whenever the floor test of line 81 succeeds in a call of `update_pva`
(post-integration `p.y < 0` and `v.y < 0`), the call leaves `p.y = 0`; it leaves `v.y`
equal to `-0.5` times the post-integration `v.y` when the rolling block is not entered in
that call, and `0.95` times that value when it is. -/
theorem c2_floor_bounce (s : State) (a : ℚ × ℚ) (h : floor_fires s a) :
    ((integrate s a).p.2 < 0 ∧ (integrate s a).v.2 < 0) ∧
    (update_pva s a).p.2 = 0 ∧
    (¬ rolling_fires s a → (update_pva s a).v.2 = -0.5 * (integrate s a).v.2) ∧
    (rolling_fires s a → (update_pva s a).v.2 = 0.95 * (-0.5 * (integrate s a).v.2)) := by
  have hv2 := collide_v2 s a
  rw [if_pos h] at hv2
  refine ⟨(floor_fires_iff s a).mp h, ?_, ?_, ?_⟩
  · rw [update_pva_p, collide_p2, if_pos h]
  · intro hr
    rw [update_pva_v, if_neg hr, hv2, BOUNCE_ATTENUATION_FACTOR]
    ring
  · intro hr
    rw [update_pva_v, if_pos hr]
    simp only [hv2, BOUNCE_ATTENUATION_FACTOR, ROLLING_ATTENUATION_FACTOR]
    ring

/-- C2 (witness): the 21st call of the run of `main` is its first floor bounce. -/
theorem c2_floor_bounce_witness :
    floor_fires ⟨(20, 0.38), (10, -9.62), 200, 1⟩ a_run ∧
    (((integrate ⟨(20, 0.38), (10, -9.62), 200, 1⟩ a_run).p.2 < 0 ∧
        (integrate ⟨(20, 0.38), (10, -9.62), 200, 1⟩ a_run).v.2 < 0) ∧
      (update_pva ⟨(20, 0.38), (10, -9.62), 200, 1⟩ a_run).p.2 = 0 ∧
      (¬ rolling_fires ⟨(20, 0.38), (10, -9.62), 200, 1⟩ a_run →
        (update_pva ⟨(20, 0.38), (10, -9.62), 200, 1⟩ a_run).v.2 =
          -0.5 * (integrate ⟨(20, 0.38), (10, -9.62), 200, 1⟩ a_run).v.2) ∧
      (rolling_fires ⟨(20, 0.38), (10, -9.62), 200, 1⟩ a_run →
        (update_pva ⟨(20, 0.38), (10, -9.62), 200, 1⟩ a_run).v.2 =
          0.95 * (-0.5 * (integrate ⟨(20, 0.38), (10, -9.62), 200, 1⟩ a_run).v.2))) :=
  ⟨by decide!, c2_floor_bounce ⟨(20, 0.38), (10, -9.62), 200, 1⟩ a_run (by decide!)⟩

/-! ## C3: the walls -/

/-- C3 (counterexample): a ball at `x = 0` moving left at `v.x = -1` with contact counter
2 on the floor. The near-wall test succeeds and `p.x` is clamped to 0, but the call leaves
`v.x = 0.475 = 0.95 * 0.5`, not `-0.5 * -1 = 0.5`; the mirrored state at `x = 49` leaves
`v.x = -0.475`, not `-0.5`. -/
theorem c3_counterexample_wall_then_rolling :
    (near_wall_fires ⟨(0, 0), (-1, 0), 200, 2⟩ a_run ∧
      (integrate ⟨(0, 0), (-1, 0), 200, 2⟩ a_run).v.1 = -1 ∧
      (update_pva ⟨(0, 0), (-1, 0), 200, 2⟩ a_run).v.1 ≠
        -0.5 * (integrate ⟨(0, 0), (-1, 0), 200, 2⟩ a_run).v.1 ∧
      (update_pva ⟨(0, 0), (-1, 0), 200, 2⟩ a_run).v.1 = 0.475) ∧
    (far_wall_fires ⟨(49, 0), (1, 0), 200, 2⟩ a_run ∧
      (integrate ⟨(49, 0), (1, 0), 200, 2⟩ a_run).v.1 = 1 ∧
      (update_pva ⟨(49, 0), (1, 0), 200, 2⟩ a_run).v.1 ≠
        -0.5 * (integrate ⟨(49, 0), (1, 0), 200, 2⟩ a_run).v.1 ∧
      (update_pva ⟨(49, 0), (1, 0), 200, 2⟩ a_run).v.1 = -0.475) := by
  refine ⟨⟨?_, ?_, ?_, ?_⟩, ⟨?_, ?_, ?_, ?_⟩⟩ <;> decide!

/-- C3 (amended): when the post-integration `p.x < 0` and `v.x < 0`, the call leaves
`p.x = 0`; when the post-integration `p.x > X_WALL` and `v.x > 0`, it leaves
`p.x = X_WALL`. In both cases it leaves `v.x` equal to `-0.5` times the post-integration
`v.x` when the rolling block is not entered in that call, and `0.95` times that value when
it is. -/
theorem c3_wall_clamp (s : State) (a : ℚ × ℚ) :
    ((integrate s a).p.1 < 0 ∧ (integrate s a).v.1 < 0 →
      (update_pva s a).p.1 = 0 ∧
      (¬ rolling_fires s a → (update_pva s a).v.1 = -0.5 * (integrate s a).v.1) ∧
      (rolling_fires s a → (update_pva s a).v.1 = 0.95 * (-0.5 * (integrate s a).v.1))) ∧
    ((integrate s a).p.1 > (X_WALL : ℚ) ∧ (integrate s a).v.1 > 0 →
      (update_pva s a).p.1 = (X_WALL : ℚ) ∧
      (¬ rolling_fires s a → (update_pva s a).v.1 = -0.5 * (integrate s a).v.1) ∧
      (rolling_fires s a → (update_pva s a).v.1 = 0.95 * (-0.5 * (integrate s a).v.1))) := by
  constructor
  · intro h
    have hn : near_wall_fires s a := h
    have hv1 := collide_v1 s a
    rw [if_pos (Or.inl hn)] at hv1
    refine ⟨?_, ?_, ?_⟩
    · rw [update_pva_p, collide_p1, if_pos hn]
    · intro hr
      rw [update_pva_v, if_neg hr, hv1, BOUNCE_ATTENUATION_FACTOR]
      ring
    · intro hr
      rw [update_pva_v, if_pos hr]
      simp only [hv1, BOUNCE_ATTENUATION_FACTOR, ROLLING_ATTENUATION_FACTOR]
      ring
  · intro h
    have hf : far_wall_fires s a := (far_wall_fires_iff s a).mpr h
    have hn : ¬ near_wall_fires s a := fun hn => not_far_of_near s a hn hf
    have hv1 := collide_v1 s a
    rw [if_pos (Or.inr hf)] at hv1
    refine ⟨?_, ?_, ?_⟩
    · rw [update_pva_p, collide_p1, if_neg hn, if_pos hf]
    · intro hr
      rw [update_pva_v, if_neg hr, hv1, BOUNCE_ATTENUATION_FACTOR]
      ring
    · intro hr
      rw [update_pva_v, if_pos hr]
      simp only [hv1, BOUNCE_ATTENUATION_FACTOR, ROLLING_ATTENUATION_FACTOR]
      ring

/-- C3 (witness): one call at the near wall and one at the far wall, both in mid-air. -/
theorem c3_wall_clamp_witness :
    (((integrate ⟨(0, 5), (-1, 0), 200, 0⟩ a_run).p.1 < 0 ∧
        (integrate ⟨(0, 5), (-1, 0), 200, 0⟩ a_run).v.1 < 0) ∧
      (update_pva ⟨(0, 5), (-1, 0), 200, 0⟩ a_run).p.1 = 0 ∧
      (¬ rolling_fires ⟨(0, 5), (-1, 0), 200, 0⟩ a_run →
        (update_pva ⟨(0, 5), (-1, 0), 200, 0⟩ a_run).v.1 =
          -0.5 * (integrate ⟨(0, 5), (-1, 0), 200, 0⟩ a_run).v.1) ∧
      (rolling_fires ⟨(0, 5), (-1, 0), 200, 0⟩ a_run →
        (update_pva ⟨(0, 5), (-1, 0), 200, 0⟩ a_run).v.1 =
          0.95 * (-0.5 * (integrate ⟨(0, 5), (-1, 0), 200, 0⟩ a_run).v.1))) ∧
    (((integrate ⟨(49, 5), (1, 0), 200, 0⟩ a_run).p.1 > (X_WALL : ℚ) ∧
        (integrate ⟨(49, 5), (1, 0), 200, 0⟩ a_run).v.1 > 0) ∧
      (update_pva ⟨(49, 5), (1, 0), 200, 0⟩ a_run).p.1 = (X_WALL : ℚ) ∧
      (¬ rolling_fires ⟨(49, 5), (1, 0), 200, 0⟩ a_run →
        (update_pva ⟨(49, 5), (1, 0), 200, 0⟩ a_run).v.1 =
          -0.5 * (integrate ⟨(49, 5), (1, 0), 200, 0⟩ a_run).v.1) ∧
      (rolling_fires ⟨(49, 5), (1, 0), 200, 0⟩ a_run →
        (update_pva ⟨(49, 5), (1, 0), 200, 0⟩ a_run).v.1 =
          0.95 * (-0.5 * (integrate ⟨(49, 5), (1, 0), 200, 0⟩ a_run).v.1))) :=
  ⟨⟨by decide!, (c3_wall_clamp ⟨(0, 5), (-1, 0), 200, 0⟩ a_run).1 (by decide!)⟩,
    ⟨by decide!, (c3_wall_clamp ⟨(49, 5), (1, 0), 200, 0⟩ a_run).2 (by decide!)⟩⟩

/-! ## C4: the bounce counter in one call -/

/-- C4: in every call of `update_pva` the floor test of line 81 is the test
"post-integration `p.y < 0` and `v.y < 0`"; the bounce counter afterwards is the old one
minus 1 exactly when that test succeeds and the old one exactly when it fails; it never
increases; and a call in which a wall test succeeds and the floor test fails leaves it
unchanged. -/
theorem c4_bounce_counter_step (s : State) (a : ℚ × ℚ) :
    (floor_fires s a ↔ (integrate s a).p.2 < 0 ∧ (integrate s a).v.2 < 0) ∧
    ((update_pva s a).num_bounces = s.num_bounces - 1 ↔ floor_fires s a) ∧
    ((update_pva s a).num_bounces = s.num_bounces ↔ ¬ floor_fires s a) ∧
    (update_pva s a).num_bounces ≤ s.num_bounces ∧
    ((near_wall_fires s a ∨ far_wall_fires s a) ∧ ¬ floor_fires s a →
      (update_pva s a).num_bounces = s.num_bounces) := by
  have h := update_pva_num_bounces s a
  refine ⟨floor_fires_iff s a, ?_, ?_, ?_, ?_⟩
  · by_cases hf : floor_fires s a
    · rw [if_pos hf] at h
      exact ⟨fun _ => hf, fun _ => h⟩
    · rw [if_neg hf] at h
      constructor
      · intro h1; omega
      · intro h1; exact absurd h1 hf
  · by_cases hf : floor_fires s a
    · rw [if_pos hf] at h
      constructor
      · intro h1; omega
      · intro h1; exact absurd hf h1
    · rw [if_neg hf] at h
      exact ⟨fun _ => hf, fun _ => h⟩
  · by_cases hf : floor_fires s a
    · rw [if_pos hf] at h; omega
    · rw [if_neg hf] at h; omega
  · rintro ⟨-, hf⟩
    rw [h, if_neg hf]

/-- C4 (witness): a call that hits the near wall in mid-air keeps the counter at 200. -/
theorem c4_bounce_counter_step_witness :
    ((near_wall_fires ⟨(0, 5), (-1, 0), 200, 0⟩ a_run ∨
        far_wall_fires ⟨(0, 5), (-1, 0), 200, 0⟩ a_run) ∧
      ¬ floor_fires ⟨(0, 5), (-1, 0), 200, 0⟩ a_run) ∧
    (update_pva ⟨(0, 5), (-1, 0), 200, 0⟩ a_run).num_bounces = 200 :=
  ⟨by decide!,
    (c4_bounce_counter_step ⟨(0, 5), (-1, 0), 200, 0⟩ a_run).2.2.2.2 (by decide!)⟩

end BouncingBall

namespace BouncingBall

/-! ## The driver loop -/

theorem run_steps_succ (a : ℚ × ℚ) (n : Nat) (s : State) :
    run_steps a (n + 1) s = update_pva (run_steps a n s) a := by
  induction n generalizing s with
  | zero => rfl
  | succ n ih =>
    show run_steps a (n + 1) (update_pva s a) = _
    rw [ih]
    rfl

/-- The counter after `n` calls is the counter before them minus the floor bounces among
them. -/
theorem run_steps_num_bounces (a : ℚ × ℚ) (n : Nat) (s : State) :
    (run_steps a n s).num_bounces = s.num_bounces - (floor_bounces a n s : Int) := by
  induction n generalizing s with
  | zero => simp [run_steps, floor_bounces]
  | succ n ih =>
    show (run_steps a n (update_pva s a)).num_bounces = _
    have e : floor_bounces a (n + 1) s =
        (if floor_fires s a then 1 else 0) + floor_bounces a n (update_pva s a) := rfl
    rw [ih, update_pva_num_bounces, e]
    split_ifs <;> push_cast <;> omega

/-- One call lowers the counter by at most one and never raises it. -/
theorem update_pva_num_bounces_bounds (s : State) (a : ℚ × ℚ) :
    s.num_bounces - 1 ≤ (update_pva s a).num_bounces ∧
      (update_pva s a).num_bounces ≤ s.num_bounces := by
  rw [update_pva_num_bounces]
  split_ifs <;> omega

theorem run_steps_num_bounces_antitone (a : ℚ × ℚ) (s : State) (m n : Nat) (h : m ≤ n) :
    (run_steps a n s).num_bounces ≤ (run_steps a m s).num_bounces := by
  induction n with
  | zero =>
    have : m = 0 := by omega
    subst this
    exact le_refl _
  | succ n ih =>
    by_cases hm : m = n + 1
    · subst hm
      exact le_refl _
    · have h1 := ih (by omega)
      have h2 := (update_pva_num_bounces_bounds (run_steps a n s) a).2
      rw [run_steps_succ]
      omega

/-- The bounded loop returns `s'` exactly when `s'` is the state after some `n ≤ fuel`
calls, its counter is negative, and the counter was non-negative before each of those
calls. -/
theorem main_loop_eq_some_iff (fuel : Nat) (s s' : State) :
    main_loop fuel s = some s' ↔
      ∃ n, n ≤ fuel ∧ s' = run_steps a_run n s ∧ s'.num_bounces < 0 ∧
        ∀ k, k < n → 0 ≤ (run_steps a_run k s).num_bounces := by
  induction fuel generalizing s with
  | zero =>
    unfold main_loop
    constructor
    · intro h
      by_cases hg : s.num_bounces ≥ 0
      · rw [if_pos hg] at h
        exact absurd h (by simp)
      · rw [if_neg hg] at h
        have e : s = s' := Option.some.inj h
        subst e
        exact ⟨0, le_refl _, rfl, by omega, fun k hk => absurd hk (Nat.not_lt_zero k)⟩
    · rintro ⟨n, hn, hs, hneg, -⟩
      have hn0 : n = 0 := by omega
      subst hn0
      have e : s' = s := hs
      subst e
      rw [if_neg (by omega)]
  | succ fuel ih =>
    unfold main_loop
    constructor
    · intro h
      by_cases hg : s.num_bounces ≥ 0
      · rw [if_pos hg] at h
        obtain ⟨n, hn, hs, hneg, hall⟩ := (ih (update_pva s a_run)).mp h
        refine ⟨n + 1, by omega, hs, hneg, ?_⟩
        intro k hk
        cases k with
        | zero => exact hg
        | succ j => exact hall j (by omega)
      · rw [if_neg hg] at h
        have e : s = s' := Option.some.inj h
        subst e
        exact ⟨0, by omega, rfl, by omega, fun k hk => absurd hk (Nat.not_lt_zero k)⟩
    · rintro ⟨n, hn, hs, hneg, hall⟩
      cases n with
      | zero =>
        have e : s' = s := hs
        subst e
        rw [if_neg (by omega)]
      | succ m =>
        have hg : s.num_bounces ≥ 0 := hall 0 (by omega)
        rw [if_pos hg]
        refine (ih (update_pva s a_run)).mpr ⟨m, by omega, hs, hneg, ?_⟩
        intro k hk
        exact hall (k + 1) (by omega)

/-- After 436 calls the run of `main` has used its whole budget of 200 bounces. -/
theorem run_steps_436_num_bounces : (run_steps a_run 436 init).num_bounces = 0 := by
  rw [← run_strict_eq]
  decide!

/-- The 437th call of the run of `main` takes the counter to -1. -/
theorem run_steps_437_num_bounces : (run_steps a_run 437 init).num_bounces = -1 := by
  rw [← run_strict_eq]
  decide!

/-- The loop of `main` exits after its 437th iteration. -/
theorem main_loop_init : main_loop 437 init = some (run_steps a_run 437 init) := by
  rw [main_loop_eq_some_iff]
  refine ⟨437, le_refl _, rfl, ?_, ?_⟩
  · rw [run_steps_437_num_bounces]
    decide
  · intro k hk
    have h := run_steps_num_bounces_antitone a_run init k 436 (by omega)
    rw [run_steps_436_num_bounces] at h
    exact h

/-! ## C5: termination of the run of `main` -/

/-- C5: the loop of `main`, started from `P0 = (0,0)`, `V0 = (10,10)`, `a = (0,-9.81)`,
bounce counter 200 and contact counter 0, terminates: after `n = 437` successive calls of
`update_pva` the bounce counter is negative, and the loop returns the state after those
calls. -/
theorem c5_main_terminates :
    ∃ n, (run_steps a_run n init).num_bounces < 0 ∧
      main_loop n init = some (run_steps a_run n init) := by
  refine ⟨437, ?_, main_loop_init⟩
  rw [run_steps_437_num_bounces]
  decide

/-! ## C6: where the driver halts -/

/-- C6: in a run of the loop of `main` (any start position, velocity and contact counter,
bounce counter `MAX_NUM_BOUNCES = 200`), after any number `n` of calls the counter is
`200` minus the number of floor bounces so far; and whenever the loop exits, it does so
after some `n ≥ 1` iterations, each entered with the counter `≥ 0`, the counter is
exactly `-1`, exactly `201` floor bounces have occurred, and the floor test succeeded in the
last iteration. -/
theorem c6_driver_halting_point (s0 : State) (h0 : s0.num_bounces = MAX_NUM_BOUNCES) :
    (∀ n, (run_steps a_run n s0).num_bounces =
        MAX_NUM_BOUNCES - (floor_bounces a_run n s0 : Int)) ∧
    (∀ fuel s', main_loop fuel s0 = some s' →
      ∃ n, 0 < n ∧ n ≤ fuel ∧ s' = run_steps a_run n s0 ∧
        (∀ k, k < n → 0 ≤ (run_steps a_run k s0).num_bounces) ∧
        s'.num_bounces = -1 ∧
        floor_bounces a_run n s0 = 201 ∧
        floor_fires (run_steps a_run (n - 1) s0) a_run) := by
  have hcount : ∀ n, (run_steps a_run n s0).num_bounces =
      MAX_NUM_BOUNCES - (floor_bounces a_run n s0 : Int) := by
    intro n
    rw [run_steps_num_bounces, h0]
  refine ⟨hcount, ?_⟩
  intro fuel s' h
  obtain ⟨n, hn, hs, hneg, hall⟩ := (main_loop_eq_some_iff fuel s0 s').mp h
  cases n with
  | zero =>
    have e : s' = s0 := hs
    rw [e, h0] at hneg
    exact absurd hneg (by decide)
  | succ m =>
    have hprev : 0 ≤ (run_steps a_run m s0).num_bounces := hall m (by omega)
    have hstep := update_pva_num_bounces (run_steps a_run m s0) a_run
    rw [← run_steps_succ, ← hs] at hstep
    have hfire : floor_fires (run_steps a_run m s0) a_run := by
      by_contra hnf
      rw [if_neg hnf] at hstep
      omega
    rw [if_pos hfire] at hstep
    have hlast : s'.num_bounces = -1 := by omega
    have hc := hcount (m + 1)
    rw [← hs, hlast] at hc
    refine ⟨m + 1, by omega, hn, hs, hall, hlast, ?_, hfire⟩
    unfold MAX_NUM_BOUNCES at hc
    omega

/-- C6 (witness): the run of `main` itself, which exits after 437 iterations. -/
theorem c6_driver_halting_point_witness :
    init.num_bounces = MAX_NUM_BOUNCES ∧
    main_loop 437 init = some (run_steps a_run 437 init) ∧
    ∃ n, 0 < n ∧ n ≤ 437 ∧ run_steps a_run 437 init = run_steps a_run n init ∧
      (∀ k, k < n → 0 ≤ (run_steps a_run k init).num_bounces) ∧
      (run_steps a_run 437 init).num_bounces = -1 ∧
      floor_bounces a_run n init = 201 ∧
      floor_fires (run_steps a_run (n - 1) init) a_run :=
  ⟨rfl, main_loop_init,
    (c6_driver_halting_point init rfl).2 437 (run_steps a_run 437 init) main_loop_init⟩

end BouncingBall

namespace BouncingBall

/-! ## The contact counter and the rolling block -/

/-- The rolling test of line 98 succeeds exactly when the ball is below `y = 1` after the
collision blocks and the incremented counter exceeds 2. -/
theorem rolling_fires_iff (s : State) (a : ℚ × ℚ) :
    rolling_fires s a ↔
      (collide s a).p.2 < 1 ∧ 2 < (s.num_contact_steps + 1) % SIZE_T_MOD := by
  unfold rolling_fires
  rw [contact_tracking_num_contact_steps, ROLLING_NUM_STEPS_THRESHOLD]
  split_ifs with h
  · constructor
    · intro h1
      exact ⟨h, by exact_mod_cast h1⟩
    · rintro ⟨-, h1⟩
      exact_mod_cast h1
  · constructor
    · intro h1
      norm_num at h1
    · rintro ⟨h1, -⟩
      exact absurd h1 h

theorem update_pva_num_contact_steps_eq (s : State) (a : ℚ × ℚ) :
    (update_pva s a).num_contact_steps =
      if (collide s a).p.2 < 1 ∧ (s.num_contact_steps + 1) % SIZE_T_MOD ≤ 2 then
        (s.num_contact_steps + 1) % SIZE_T_MOD
      else 0 := by
  rw [update_pva_num_contact_steps, contact_tracking_num_contact_steps]
  by_cases hr : rolling_fires s a
  · rw [if_pos hr]
    rw [rolling_fires_iff] at hr
    rw [if_neg]
    rintro ⟨-, h2⟩
    omega
  · rw [if_neg hr]
    rw [rolling_fires_iff] at hr
    by_cases hp : (collide s a).p.2 < 1
    · have h2 : (s.num_contact_steps + 1) % SIZE_T_MOD ≤ 2 := by
        by_contra hlt
        exact hr ⟨hp, by omega⟩
      rw [if_pos hp, if_pos ⟨hp, h2⟩]
    · rw [if_neg hp, if_neg]
      rintro ⟨h1, -⟩
      exact hp h1

/-- What one call does around the rolling block when the ball is below `y = 1` after the
collision blocks, in terms of the incremented counter `(c + 1) % SIZE_T_MOD`. -/
theorem near_floor_step (s : State) (a : ℚ × ℚ) (hp : (collide s a).p.2 < 1) :
    ((s.num_contact_steps + 1) % SIZE_T_MOD ≤ 2 →
      ¬ rolling_fires s a ∧ (update_pva s a).v = (collide s a).v ∧
        (update_pva s a).num_contact_steps = (s.num_contact_steps + 1) % SIZE_T_MOD) ∧
    (2 < (s.num_contact_steps + 1) % SIZE_T_MOD →
      rolling_fires s a ∧
        (update_pva s a).v = (0.95 * (collide s a).v.1, 0.95 * (collide s a).v.2) ∧
        (update_pva s a).num_contact_steps = 0) := by
  constructor
  · intro h2
    have hr : ¬ rolling_fires s a := by
      rw [rolling_fires_iff]
      rintro ⟨-, h3⟩
      omega
    refine ⟨hr, ?_, ?_⟩
    · rw [update_pva_v, if_neg hr]
    · rw [update_pva_num_contact_steps_eq, if_pos ⟨hp, h2⟩]
  · intro h2
    have hr : rolling_fires s a := by
      rw [rolling_fires_iff]
      exact ⟨hp, h2⟩
    refine ⟨hr, ?_, ?_⟩
    · rw [update_pva_v, if_pos hr, ROLLING_ATTENUATION_FACTOR]
      apply Prod.ext <;> simp <;> ring
    · rw [update_pva_num_contact_steps_eq, if_neg]
      rintro ⟨-, h3⟩
      omega

end BouncingBall

namespace BouncingBall

/-! ## C7: when the rolling block is entered -/

/-- C7: (single call) whenever the contact counter entering a call is 2 and the ball is
below `y = 1` after the collision blocks, the rolling block is entered: the velocity left
is `0.95` times the post-collision velocity on both axes and the counter left is 0.
(Three calls) starting from contact counter 0, if the ball is below `y = 1` after the
collision blocks of each of three consecutive calls, the rolling block is skipped in the
first two, which leave the post-collision velocity untouched, and entered in the third,
which leaves `0.95` times the post-collision velocity and counter 0. -/
theorem c7_rolling_trigger (a : ℚ × ℚ) :
    (∀ s : State, s.num_contact_steps = 2 → (collide s a).p.2 < 1 →
      rolling_fires s a ∧
      (update_pva s a).v = (0.95 * (collide s a).v.1, 0.95 * (collide s a).v.2) ∧
      (update_pva s a).num_contact_steps = 0) ∧
    (∀ s : State, s.num_contact_steps = 0 →
      (collide s a).p.2 < 1 →
      (collide (update_pva s a) a).p.2 < 1 →
      (collide (update_pva (update_pva s a) a) a).p.2 < 1 →
      (¬ rolling_fires s a ∧ (update_pva s a).v = (collide s a).v) ∧
      (¬ rolling_fires (update_pva s a) a ∧
        (update_pva (update_pva s a) a).v = (collide (update_pva s a) a).v) ∧
      rolling_fires (update_pva (update_pva s a) a) a ∧
      (update_pva (update_pva (update_pva s a) a) a).v =
        (0.95 * (collide (update_pva (update_pva s a) a) a).v.1,
          0.95 * (collide (update_pva (update_pva s a) a) a).v.2) ∧
      (update_pva (update_pva (update_pva s a) a) a).num_contact_steps = 0) := by
  have single : ∀ s : State, s.num_contact_steps = 2 → (collide s a).p.2 < 1 →
      rolling_fires s a ∧
      (update_pva s a).v = (0.95 * (collide s a).v.1, 0.95 * (collide s a).v.2) ∧
      (update_pva s a).num_contact_steps = 0 := by
    intro s hc hp
    exact (near_floor_step s a hp).2 (by rw [hc]; decide)
  refine ⟨single, ?_⟩
  intro s hc h1 h2 h3
  obtain ⟨hr1, hv1, hn1⟩ := (near_floor_step s a h1).1 (by rw [hc]; decide)
  rw [hc] at hn1
  obtain ⟨hr2, hv2, hn2⟩ :=
    (near_floor_step (update_pva s a) a h2).1 (by rw [hn1]; decide)
  rw [hn1] at hn2
  exact ⟨⟨hr1, hv1⟩, ⟨hr2, hv2⟩, single (update_pva (update_pva s a) a) hn2 h3⟩

/-- C7 (witness): a ball that starts at rest on the floor under `a = (0, -G)` stays below
`y = 1` for three calls; and the state `main` is in after 21 calls enters a call with
counter 2. -/
theorem c7_rolling_trigger_witness :
    ((⟨(21, 0), (10, 5.3005), 199, 2⟩ : State).num_contact_steps = 2 ∧
      (collide ⟨(21, 0), (10, 5.3005), 199, 2⟩ a_run).p.2 < 1 ∧
      (update_pva ⟨(21, 0), (10, 5.3005), 199, 2⟩ a_run).num_contact_steps = 0) ∧
    ((⟨(0, 0), (0, 0), 200, 0⟩ : State).num_contact_steps = 0 ∧
      (collide ⟨(0, 0), (0, 0), 200, 0⟩ a_run).p.2 < 1 ∧
      (collide (update_pva ⟨(0, 0), (0, 0), 200, 0⟩ a_run) a_run).p.2 < 1 ∧
      (collide (update_pva (update_pva ⟨(0, 0), (0, 0), 200, 0⟩ a_run) a_run) a_run).p.2 < 1 ∧
      rolling_fires (update_pva (update_pva ⟨(0, 0), (0, 0), 200, 0⟩ a_run) a_run) a_run) :=
  ⟨⟨rfl, by decide!,
      ((c7_rolling_trigger a_run).1 ⟨(21, 0), (10, 5.3005), 199, 2⟩ rfl (by decide!)).2.2⟩,
    ⟨rfl, by decide!, by decide!, by decide!,
      ((c7_rolling_trigger a_run).2 ⟨(0, 0), (0, 0), 200, 0⟩ rfl
        (by decide!) (by decide!) (by decide!)).2.2.1⟩⟩

/-! ## C8: the contact counter in one call -/

/-- C8: for every call of `update_pva`, with `c` the incoming contact counter and `c + 1`
the value `++` gives it (`(c + 1) % 2 ^ 64`, which is `c + 1` for every `c` below the
largest `size_t`): if the ball is at `y ≥ 1` after the collision blocks, the counter left
is 0, the rolling block is skipped and the velocity left is the post-collision velocity;
if it is below `y = 1`, the counter left is `c + 1` when `c + 1 ≤ 2` (rolling block
skipped) and `0` when `c + 1 > 2` (rolling block entered). -/
theorem c8_contact_counter_update (s : State) (a : ℚ × ℚ) :
    (1 ≤ (collide s a).p.2 →
      (update_pva s a).num_contact_steps = 0 ∧ ¬ rolling_fires s a ∧
        (update_pva s a).v = (collide s a).v) ∧
    ((collide s a).p.2 < 1 →
      ((s.num_contact_steps + 1) % SIZE_T_MOD ≤ 2 →
        (update_pva s a).num_contact_steps = (s.num_contact_steps + 1) % SIZE_T_MOD ∧
          ¬ rolling_fires s a) ∧
      ((s.num_contact_steps + 1) % SIZE_T_MOD > 2 →
        (update_pva s a).num_contact_steps = 0 ∧ rolling_fires s a)) ∧
    (s.num_contact_steps + 1 < SIZE_T_MOD →
      (s.num_contact_steps + 1) % SIZE_T_MOD = s.num_contact_steps + 1) := by
  refine ⟨?_, ?_, Nat.mod_eq_of_lt⟩
  · intro hp
    have hr : ¬ rolling_fires s a := by
      rw [rolling_fires_iff]
      rintro ⟨h1, -⟩
      linarith
    refine ⟨?_, hr, ?_⟩
    · rw [update_pva_num_contact_steps_eq, if_neg]
      rintro ⟨h1, -⟩
      linarith
    · rw [update_pva_v, if_neg hr]
  · intro hp
    constructor
    · intro h2
      obtain ⟨hr, -, hn⟩ := (near_floor_step s a hp).1 h2
      exact ⟨hn, hr⟩
    · intro h2
      obtain ⟨hr, -, hn⟩ := (near_floor_step s a hp).2 h2
      exact ⟨hn, hr⟩

/-- C8 (witness): the first call of the run (counter 0, ball below `y = 1`), a call in
mid-air with counter 2, and the 22nd call of the run (counter 2, ball on the floor). -/
theorem c8_contact_counter_update_witness :
    ((collide init a_run).p.2 < 1 ∧ (init.num_contact_steps + 1) % SIZE_T_MOD ≤ 2 ∧
      (update_pva init a_run).num_contact_steps = 1) ∧
    (1 ≤ (collide ⟨(0, 5), (0, 0), 200, 2⟩ a_run).p.2 ∧
      (update_pva ⟨(0, 5), (0, 0), 200, 2⟩ a_run).num_contact_steps = 0) ∧
    ((collide ⟨(21, 0), (10, 5.3005), 199, 2⟩ a_run).p.2 < 1 ∧
      (2 + 1) % SIZE_T_MOD > 2 ∧
      (update_pva ⟨(21, 0), (10, 5.3005), 199, 2⟩ a_run).num_contact_steps = 0 ∧
      rolling_fires ⟨(21, 0), (10, 5.3005), 199, 2⟩ a_run) :=
  ⟨⟨by decide!, by decide,
      (((c8_contact_counter_update init a_run).2.1 (by decide!)).1 (by decide)).1⟩,
    ⟨by decide!,
      ((c8_contact_counter_update ⟨(0, 5), (0, 0), 200, 2⟩ a_run).1 (by decide!)).1⟩,
    ⟨by decide!, by decide,
      ((c8_contact_counter_update ⟨(21, 0), (10, 5.3005), 199, 2⟩ a_run).2.1
        (by decide!)).2 (by decide)⟩⟩

end BouncingBall

namespace BouncingBall

/-! ## C9: a ball at rest on the floor -/

/-- C9 (counterexample): a ball at rest on the floor, `p = (0, 0)`, `v = (0, 0)`, under
`a = (0, -G)`. The integration takes it to `p.y = -0.04905`, `v.y = -0.981`, so the floor
test succeeds: `v.y` is reflected to `0.4905` and the bounce counter goes from 200 to
199. -/
theorem c9_counterexample_rest_on_floor_bounces :
    (⟨(0, 0), (0, 0), 200, 0⟩ : State).p.2 = 0 ∧
    (⟨(0, 0), (0, 0), 200, 0⟩ : State).v.2 = 0 ∧
    (integrate ⟨(0, 0), (0, 0), 200, 0⟩ a_run).p.2 = -0.04905 ∧
    (integrate ⟨(0, 0), (0, 0), 200, 0⟩ a_run).v.2 = -0.981 ∧
    floor_fires ⟨(0, 0), (0, 0), 200, 0⟩ a_run ∧
    (update_pva ⟨(0, 0), (0, 0), 200, 0⟩ a_run).v.2 = 0.4905 ∧
    (update_pva ⟨(0, 0), (0, 0), 200, 0⟩ a_run).num_bounces = 199 := by
  refine ⟨rfl, rfl, ?_, ?_, ?_, ?_, ?_⟩ <;> decide!

/-- C9 (amended): for every state entering `update_pva` with `p.y = 0` and `v.y = 0`:
when the vertical acceleration is not downward (`a.y ≥ 0`) the floor block is skipped, so
`p.y` and `v.y` leave the collision blocks as integrated and the bounce counter is
unchanged; when it is downward (`a.y < 0`, as in the run's `a = (0, -G)`) the floor block
is entered: `p.y` is left at 0, `v.y` leaves the collision blocks as `-0.5 * (a.y * DT)`
(`0.4905` in the run) and the bounce counter is decremented by exactly 1. -/
theorem c9_rest_on_floor (s : State) (a : ℚ × ℚ) (hp : s.p.2 = 0) (hv : s.v.2 = 0) :
    (0 ≤ a.2 →
      ¬ floor_fires s a ∧ (update_pva s a).p.2 = (integrate s a).p.2 ∧
        (collide s a).v.2 = (integrate s a).v.2 ∧
        (update_pva s a).num_bounces = s.num_bounces) ∧
    (a.2 < 0 →
      floor_fires s a ∧ (update_pva s a).p.2 = 0 ∧
        (collide s a).v.2 = -0.5 * (a.2 * DT) ∧
        (update_pva s a).num_bounces = s.num_bounces - 1) := by
  have hip : (integrate s a).p.2 = 0.5 * a.2 * DT * DT := by
    rw [integrate_p]
    simp [hp, hv]
  have hiv : (integrate s a).v.2 = a.2 * DT := by
    rw [integrate_v]
    simp [hv]
  have hdt : (0 : ℚ) < DT := by
    unfold DT
    norm_num
  constructor
  · intro ha
    have hnf : ¬ floor_fires s a := by
      rw [floor_fires_iff, hiv]
      rintro ⟨-, h2⟩
      have : 0 ≤ a.2 * DT := mul_nonneg ha hdt.le
      linarith
    refine ⟨hnf, ?_, ?_, ?_⟩
    · rw [update_pva_p, collide_p2, if_neg hnf]
    · rw [collide_v2, if_neg hnf]
    · rw [update_pva_num_bounces, if_neg hnf]
  · intro ha
    have hf : floor_fires s a := by
      rw [floor_fires_iff, hip, hiv]
      have h1 : a.2 * DT < 0 := mul_neg_of_neg_of_pos ha hdt
      have h2 : a.2 * DT * DT < 0 := mul_neg_of_neg_of_pos h1 hdt
      constructor
      · have e : (0.5 : ℚ) * a.2 * DT * DT = 0.5 * (a.2 * DT * DT) := by ring
        rw [e]
        linarith [show (0.5 : ℚ) * (a.2 * DT * DT) = (a.2 * DT * DT) / 2 by ring]
      · exact h1
    refine ⟨hf, ?_, ?_, ?_⟩
    · rw [update_pva_p, collide_p2, if_pos hf]
    · rw [collide_v2, if_pos hf, hiv, BOUNCE_ATTENUATION_FACTOR]
      ring
    · rw [update_pva_num_bounces, if_pos hf]

/-- C9 (witness): a ball at rest on the floor, once without gravity and once under the
run's acceleration. -/
theorem c9_rest_on_floor_witness :
    ((⟨(0, 0), (0, 0), 200, 0⟩ : State).p.2 = 0 ∧
      (⟨(0, 0), (0, 0), 200, 0⟩ : State).v.2 = 0) ∧
    ((0 : ℚ) ≤ ((0, 0) : ℚ × ℚ).2 ∧
      (update_pva ⟨(0, 0), (0, 0), 200, 0⟩ (0, 0)).num_bounces = 200) ∧
    (a_run.2 < 0 ∧ (update_pva ⟨(0, 0), (0, 0), 200, 0⟩ a_run).num_bounces = 200 - 1) :=
  ⟨⟨rfl, rfl⟩,
    ⟨by decide!,
      ((c9_rest_on_floor ⟨(0, 0), (0, 0), 200, 0⟩ (0, 0) rfl rfl).1 (by decide!)).2.2.2⟩,
    ⟨by decide!,
      ((c9_rest_on_floor ⟨(0, 0), (0, 0), 200, 0⟩ a_run rfl rfl).2 (by decide!)).2.2.2⟩⟩

/-! ## C10: a ball at rest against a wall -/

/-- C10: for every state entering `update_pva` with `p.x = 0` or `p.x = X_WALL` and
`v.x = 0`, under `a = (0, -G)`, neither wall test succeeds; the call leaves `p.x` as it
was, hence still at that wall, and `v.x = 0`. -/
theorem c10_rest_at_wall (s : State) (hp : s.p.1 = 0 ∨ s.p.1 = (X_WALL : ℚ))
    (hv : s.v.1 = 0) :
    ¬ near_wall_fires s a_run ∧ ¬ far_wall_fires s a_run ∧
    (update_pva s a_run).p.1 = s.p.1 ∧ (update_pva s a_run).v.1 = 0 ∧
    ((update_pva s a_run).p.1 = 0 ∨ (update_pva s a_run).p.1 = (X_WALL : ℚ)) := by
  have ha1 : a_run.1 = 0 := rfl
  have hip : (integrate s a_run).p.1 = s.p.1 := by
    rw [integrate_p, ha1]
    simp [hv]
  have hiv : (integrate s a_run).v.1 = 0 := by
    rw [integrate_v, ha1]
    simp [hv]
  have hn : ¬ near_wall_fires s a_run := by
    rintro ⟨-, h2⟩
    rw [hiv] at h2
    exact lt_irrefl _ h2
  have hf : ¬ far_wall_fires s a_run := by
    rw [far_wall_fires_iff]
    rintro ⟨-, h2⟩
    rw [hiv] at h2
    exact lt_irrefl _ h2
  have hcv : (collide s a_run).v.1 = 0 := by
    rw [collide_v1, if_neg (not_or.mpr ⟨hn, hf⟩), hiv]
  have hpx : (update_pva s a_run).p.1 = s.p.1 := by
    rw [update_pva_p, collide_p1, if_neg hn, if_neg hf, hip]
  refine ⟨hn, hf, hpx, ?_, ?_⟩
  · rw [update_pva_v]
    split_ifs
    · simp [hcv]
    · exact hcv
  · rw [hpx]
    exact hp

/-- C10 (witness): a ball at rest in the far corner, `p = (49, 0)`. -/
theorem c10_rest_at_wall_witness :
    ((⟨(49, 0), (0, 0), 200, 0⟩ : State).p.1 = 0 ∨
      (⟨(49, 0), (0, 0), 200, 0⟩ : State).p.1 = (X_WALL : ℚ)) ∧
    (⟨(49, 0), (0, 0), 200, 0⟩ : State).v.1 = 0 ∧
    (update_pva ⟨(49, 0), (0, 0), 200, 0⟩ a_run).p.1 = 49 ∧
    (update_pva ⟨(49, 0), (0, 0), 200, 0⟩ a_run).v.1 = 0 :=
  ⟨by decide!, rfl,
    (c10_rest_at_wall ⟨(49, 0), (0, 0), 200, 0⟩ (by decide!) rfl).2.2.1,
    (c10_rest_at_wall ⟨(49, 0), (0, 0), 200, 0⟩ (by decide!) rfl).2.2.2.1⟩

end BouncingBall

namespace BouncingBall

/-! ## C11: the position left by one call -/

/-- The x-position left by a call, in terms of the integrated position and velocity. -/
theorem update_pva_p1_eq (s : State) (a : ℚ × ℚ) :
    (update_pva s a).p.1 =
      if (integrate s a).p.1 < 0 ∧ (integrate s a).v.1 < 0 then 0
      else if (integrate s a).p.1 > (X_WALL : ℚ) ∧ (integrate s a).v.1 > 0 then (X_WALL : ℚ)
      else (integrate s a).p.1 := by
  rw [update_pva_p, collide_p1]
  by_cases hn : near_wall_fires s a
  · have hn' : (integrate s a).p.1 < 0 ∧ (integrate s a).v.1 < 0 := hn
    rw [if_pos hn, if_pos hn']
  · have hn' : ¬ ((integrate s a).p.1 < 0 ∧ (integrate s a).v.1 < 0) := hn
    rw [if_neg hn, if_neg hn']
    by_cases hf : far_wall_fires s a
    · rw [if_pos hf, if_pos ((far_wall_fires_iff s a).mp hf)]
    · rw [if_neg hf, if_neg (fun h => hf ((far_wall_fires_iff s a).mpr h))]

/-- The y-position left by a call, in terms of the integrated position and velocity. -/
theorem update_pva_p2_eq (s : State) (a : ℚ × ℚ) :
    (update_pva s a).p.2 =
      if (integrate s a).p.2 < 0 ∧ (integrate s a).v.2 < 0 then 0
      else (integrate s a).p.2 := by
  rw [update_pva_p, collide_p2]
  by_cases hf : floor_fires s a
  · rw [if_pos hf, if_pos ((floor_fires_iff s a).mp hf)]
  · rw [if_neg hf, if_neg (fun h => hf ((floor_fires_iff s a).mpr h))]

/-- C11: for every input state and acceleration `a`, the integration gives
`p_int = p0 + v0*DT + 0.5*a*DT^2` (with `v0` the velocity before the call) and
`v_int = v0 + a*DT`; the call leaves `p.x = 0` if `p_int.x < 0` and `v_int.x < 0`,
`p.x = X_WALL` if `p_int.x > X_WALL` and `v_int.x > 0`, and `p.x = p_int.x` otherwise; it
leaves `p.y = 0` if `p_int.y < 0` and `v_int.y < 0` and `p.y = p_int.y` otherwise; and the
position left is the same whatever the two counters are. -/
theorem c11_position_update (s : State) (a : ℚ × ℚ) :
    (integrate s a).p =
      (s.p.1 + s.v.1 * DT + 0.5 * a.1 * DT ^ 2, s.p.2 + s.v.2 * DT + 0.5 * a.2 * DT ^ 2) ∧
    (integrate s a).v = (s.v.1 + a.1 * DT, s.v.2 + a.2 * DT) ∧
    (update_pva s a).p.1 =
      (if (integrate s a).p.1 < 0 ∧ (integrate s a).v.1 < 0 then 0
        else if (integrate s a).p.1 > (X_WALL : ℚ) ∧ (integrate s a).v.1 > 0 then (X_WALL : ℚ)
        else (integrate s a).p.1) ∧
    (update_pva s a).p.2 =
      (if (integrate s a).p.2 < 0 ∧ (integrate s a).v.2 < 0 then 0
        else (integrate s a).p.2) ∧
    (∀ (nb : Int) (nc : Nat),
      (update_pva { s with num_bounces := nb, num_contact_steps := nc } a).p =
        (update_pva s a).p) := by
  refine ⟨?_, integrate_v s a, update_pva_p1_eq s a, update_pva_p2_eq s a, ?_⟩
  · rw [integrate_p]
    apply Prod.ext <;> simp <;> ring
  · intro nb nc
    apply Prod.ext
    · rw [update_pva_p1_eq, update_pva_p1_eq]
      rfl
    · rw [update_pva_p2_eq, update_pva_p2_eq]
      rfl

/-! ## C15: the two wall blocks -/

/-- C15: for every input state and acceleration, the two wall tests do not both succeed
in one call; `v.x` leaves the collision blocks multiplied by `-0.5` once when one of them
succeeds and untouched when neither does; and when the near-wall test succeeds the call
leaves `p.x = 0`, not `X_WALL`. -/
theorem c15_wall_blocks_exclusive (s : State) (a : ℚ × ℚ) :
    ¬ (near_wall_fires s a ∧ far_wall_fires s a) ∧
    (collide s a).v.1 =
      (if near_wall_fires s a ∨ far_wall_fires s a then -0.5 * (integrate s a).v.1
        else (integrate s a).v.1) ∧
    (near_wall_fires s a →
      (update_pva s a).p.1 = 0 ∧ (update_pva s a).p.1 ≠ (X_WALL : ℚ)) := by
  refine ⟨fun h => not_far_of_near s a h.1 h.2, ?_, ?_⟩
  · rw [collide_v1, BOUNCE_ATTENUATION_FACTOR]
    split_ifs
    · ring
    · rfl
  · intro hn
    have h0 : (update_pva s a).p.1 = 0 := by
      rw [update_pva_p, collide_p1, if_pos hn]
    refine ⟨h0, ?_⟩
    rw [h0, X_WALL]
    norm_num

/-- C15 (witness): a call that hits the near wall in mid-air. -/
theorem c15_wall_blocks_exclusive_witness :
    near_wall_fires ⟨(0, 5), (-1, 0), 200, 0⟩ a_run ∧
    (update_pva ⟨(0, 5), (-1, 0), 200, 0⟩ a_run).p.1 = 0 ∧
    (update_pva ⟨(0, 5), (-1, 0), 200, 0⟩ a_run).p.1 ≠ (X_WALL : ℚ) :=
  ⟨by decide!, (c15_wall_blocks_exclusive ⟨(0, 5), (-1, 0), 200, 0⟩ a_run).2.2 (by decide!)⟩

/-! ## C16: the range of the contact counter -/

/-- The contact counter left by any call is at most 2. -/
theorem update_pva_num_contact_steps_le (s : State) (a : ℚ × ℚ) :
    (update_pva s a).num_contact_steps ≤ 2 := by
  rw [update_pva_num_contact_steps_eq]
  split_ifs with h
  · exact h.2
  · exact Nat.zero_le 2

/-- A call entered with contact counter at most 1 skips the rolling block. -/
theorem not_rolling_of_le_one (s : State) (a : ℚ × ℚ) (h : s.num_contact_steps ≤ 1) :
    ¬ rolling_fires s a := by
  rw [rolling_fires_iff]
  rintro ⟨-, h2⟩
  have hlt : s.num_contact_steps + 1 < SIZE_T_MOD := by
    unfold SIZE_T_MOD
    omega
  rw [Nat.mod_eq_of_lt hlt] at h2
  omega

/-- A call entered with contact counter at most 1 leaves it at most one higher. -/
theorem update_pva_num_contact_steps_le_succ (s : State) (a : ℚ × ℚ)
    (h : s.num_contact_steps ≤ 1) :
    (update_pva s a).num_contact_steps ≤ s.num_contact_steps + 1 := by
  rw [update_pva_num_contact_steps_eq]
  have hlt : s.num_contact_steps + 1 < SIZE_T_MOD := by
    unfold SIZE_T_MOD
    omega
  rw [Nat.mod_eq_of_lt hlt]
  split_ifs <;> omega

/-- C16: for every input state of `update_pva`, whatever the incoming counter, the
contact counter left is 0, 1 or 2; hence after any number of calls the counter is at most
`ROLLING_NUM_STEPS_THRESHOLD = 2` (for a run started with counter 0, also before the first
call); and when the rolling block is entered in a call it is skipped in the next two, so
it is entered at most once in any three consecutive calls. -/
theorem c16_contact_counter_range (s : State) (a : ℚ × ℚ) :
    ((update_pva s a).num_contact_steps = 0 ∨ (update_pva s a).num_contact_steps = 1 ∨
      (update_pva s a).num_contact_steps = 2) ∧
    (∀ n, (run_steps a (n + 1) s).num_contact_steps ≤ 2) ∧
    (s.num_contact_steps = 0 →
      ∀ n, ((run_steps a n s).num_contact_steps : ℚ) ≤ ROLLING_NUM_STEPS_THRESHOLD) ∧
    (rolling_fires s a →
      ¬ rolling_fires (update_pva s a) a ∧
        ¬ rolling_fires (update_pva (update_pva s a) a) a) ∧
    (rolling_fires (update_pva s a) a →
      ¬ rolling_fires (update_pva (update_pva s a) a) a) := by
  have hstep : ∀ n, (run_steps a (n + 1) s).num_contact_steps ≤ 2 := by
    intro n
    rw [run_steps_succ]
    exact update_pva_num_contact_steps_le _ a
  have hafter : ∀ t : State, rolling_fires t a →
      ¬ rolling_fires (update_pva t a) a ∧
        ¬ rolling_fires (update_pva (update_pva t a) a) a := by
    intro t hr
    have h0 : (update_pva t a).num_contact_steps = 0 := by
      rw [update_pva_num_contact_steps, if_pos hr]
    have h1 : (update_pva (update_pva t a) a).num_contact_steps ≤ 1 := by
      have := update_pva_num_contact_steps_le_succ (update_pva t a) a (by omega)
      omega
    exact ⟨not_rolling_of_le_one _ a (by omega), not_rolling_of_le_one _ a h1⟩
  refine ⟨?_, hstep, ?_, hafter s, fun hr => (hafter (update_pva s a) hr).1⟩
  · have := update_pva_num_contact_steps_le s a
    omega
  · intro h0 n
    rw [ROLLING_NUM_STEPS_THRESHOLD]
    cases n with
    | zero =>
      show ((s.num_contact_steps : ℚ)) ≤ 2
      rw [h0]
      norm_num
    | succ m =>
      have := hstep m
      exact_mod_cast this

/-- C16 (witness): the run of `main` starts with counter 0 and has counter at most 2
after three calls; its 22nd call enters the rolling block and the next two calls skip
it. -/
theorem c16_contact_counter_range_witness :
    (init.num_contact_steps = 0 ∧
      ((run_steps a_run 3 init).num_contact_steps : ℚ) ≤ ROLLING_NUM_STEPS_THRESHOLD) ∧
    (rolling_fires ⟨(21, 0), (10, 5.3005), 199, 2⟩ a_run ∧
      ¬ rolling_fires (update_pva ⟨(21, 0), (10, 5.3005), 199, 2⟩ a_run) a_run ∧
      ¬ rolling_fires
        (update_pva (update_pva ⟨(21, 0), (10, 5.3005), 199, 2⟩ a_run) a_run) a_run) :=
  ⟨⟨rfl, (c16_contact_counter_range init a_run).2.2.1 rfl 3⟩,
    ⟨by decide!,
      (c16_contact_counter_range ⟨(21, 0), (10, 5.3005), 199, 2⟩ a_run).2.2.2.1
        (by decide!)⟩⟩

end BouncingBall

namespace BouncingBall

/-! ## C13: no gravity -/

theorem main_loop_with_a_run (fuel : Nat) (s : State) :
    main_loop_with a_run fuel s = main_loop fuel s := by
  induction fuel generalizing s with
  | zero => rfl
  | succ fuel ih =>
    unfold main_loop_with main_loop
    rw [ih]

/-- Without vertical acceleration, a ball at or above the floor that is not moving down
stays so through a call, the floor block is skipped and the bounce counter is kept. -/
theorem zero_gravity_step (s : State) (hp : 0 ≤ s.p.2) (hv : 0 ≤ s.v.2) :
    ¬ floor_fires s (0, 0) ∧ 0 ≤ (update_pva s (0, 0)).p.2 ∧
      0 ≤ (update_pva s (0, 0)).v.2 ∧
      (update_pva s (0, 0)).num_bounces = s.num_bounces := by
  have hiv : (integrate s (0, 0)).v.2 = s.v.2 := by
    rw [integrate_v]
    simp
  have hip : (integrate s (0, 0)).p.2 = s.p.2 + s.v.2 * DT := by
    rw [integrate_p]
    simp
  have hdt : (0 : ℚ) ≤ DT := by
    unfold DT
    norm_num
  have hnf : ¬ floor_fires s (0, 0) := by
    rw [floor_fires_iff, hiv]
    rintro ⟨-, h2⟩
    linarith
  have hcv : (collide s (0, 0)).v.2 = s.v.2 := by
    rw [collide_v2, if_neg hnf, hiv]
  refine ⟨hnf, ?_, ?_, ?_⟩
  · rw [update_pva_p, collide_p2, if_neg hnf, hip]
    have := mul_nonneg hv hdt
    linarith
  · rw [update_pva_v]
    split_ifs
    · show 0 ≤ (collide s (0, 0)).v.2 * ROLLING_ATTENUATION_FACTOR
      rw [hcv, ROLLING_ATTENUATION_FACTOR]
      have : (0 : ℚ) ≤ 0.95 := by norm_num
      exact mul_nonneg hv this
    · rw [hcv]
      exact hv
  · rw [update_pva_num_bounces, if_neg hnf]

theorem zero_gravity_run (n : Nat) (s : State) (hp : 0 ≤ s.p.2) (hv : 0 ≤ s.v.2) :
    0 ≤ (run_steps (0, 0) n s).p.2 ∧ 0 ≤ (run_steps (0, 0) n s).v.2 ∧
      (run_steps (0, 0) n s).num_bounces = s.num_bounces := by
  induction n generalizing s with
  | zero => exact ⟨hp, hv, rfl⟩
  | succ n ih =>
    obtain ⟨-, h1, h2, h3⟩ := zero_gravity_step s hp hv
    obtain ⟨i1, i2, i3⟩ := ih (update_pva s (0, 0)) h1 h2
    exact ⟨i1, i2, i3.trans h3⟩

theorem zero_gravity_loop (fuel : Nat) (s : State) (hp : 0 ≤ s.p.2) (hv : 0 ≤ s.v.2)
    (hb : 0 ≤ s.num_bounces) : main_loop_with (0, 0) fuel s = none := by
  induction fuel generalizing s with
  | zero =>
    unfold main_loop_with
    rw [if_pos hb]
  | succ fuel ih =>
    unfold main_loop_with
    rw [if_pos hb]
    obtain ⟨-, h1, h2, h3⟩ := zero_gravity_step s hp hv
    exact ih (update_pva s (0, 0)) h1 h2 (by rw [h3]; exact hb)

/-- C13: with zero gravity, `a = (0, 0)`, from a floor-level start (`p.y = 0`) with
non-negative vertical velocity, the floor test fails in every call: for every `n` no floor
bounce has been counted and the bounce counter after `n` calls is the initial one; so, the
counter starting non-negative, the loop of `main` is still running after any number of
iterations. -/
theorem c13_zero_gravity_never_terminates (s : State) (hp : s.p.2 = 0) (hv : 0 ≤ s.v.2) :
    (∀ n, ¬ floor_fires (run_steps (0, 0) n s) (0, 0)) ∧
    (∀ n, floor_bounces (0, 0) n s = 0) ∧
    (∀ n, (run_steps (0, 0) n s).num_bounces = s.num_bounces) ∧
    (0 ≤ s.num_bounces → ∀ fuel, main_loop_with (0, 0) fuel s = none) := by
  have hp0 : 0 ≤ s.p.2 := by rw [hp]
  have hcount : ∀ n, (run_steps (0, 0) n s).num_bounces = s.num_bounces :=
    fun n => (zero_gravity_run n s hp0 hv).2.2
  refine ⟨?_, ?_, hcount, ?_⟩
  · intro n
    obtain ⟨h1, h2, -⟩ := zero_gravity_run n s hp0 hv
    exact (zero_gravity_step _ h1 h2).1
  · intro n
    have h1 := run_steps_num_bounces (0, 0) n s
    rw [hcount n] at h1
    omega
  · intro hb fuel
    exact zero_gravity_loop fuel s hp0 hv hb

/-- C13 (witness): the start of `main`, `P0 = (0, 0)`, `V0 = (10, 10)`, counter 200. -/
theorem c13_zero_gravity_never_terminates_witness :
    (init.p.2 = 0 ∧ (0 : ℚ) ≤ init.v.2 ∧ 0 ≤ init.num_bounces) ∧
    (run_steps (0, 0) 1000 init).num_bounces = 200 ∧
    main_loop_with (0, 0) 1000 init = none :=
  ⟨⟨rfl, by decide!, by decide⟩,
    (c13_zero_gravity_never_terminates init rfl (by decide!)).2.2.1 1000,
    (c13_zero_gravity_never_terminates init rfl (by decide!)).2.2.2 (by decide) 1000⟩

/-! ## C14: the ball stays in the room -/

/-- Under `a = (0, -G)`, a call entered with the ball in the room leaves it in the room. -/
theorem in_room_update_pva (s : State) (h : in_room s.p) : in_room (update_pva s a_run).p := by
  obtain ⟨hx0, hx1, hy0⟩ := h
  have ha1 : a_run.1 = 0 := rfl
  have ha2 : a_run.2 = -G := rfl
  have hip1 : (integrate s a_run).p.1 = s.p.1 + s.v.1 * DT := by
    rw [integrate_p, ha1]
    simp
  have hiv1 : (integrate s a_run).v.1 = s.v.1 := by
    rw [integrate_v, ha1]
    simp
  have hip2 : (integrate s a_run).p.2 = s.p.2 + s.v.2 * DT + 0.5 * -G * DT * DT := by
    rw [integrate_p, ha2]
  have hiv2 : (integrate s a_run).v.2 = s.v.2 + -G * DT := by
    rw [integrate_v, ha2]
  have hX : ((X_WALL : Nat) : ℚ) = 49 := by
    rw [X_WALL]
    norm_num
  unfold in_room
  rw [update_pva_p1_eq, update_pva_p2_eq, hip1, hiv1, hip2, hiv2, hX]
  rw [hX] at hx1
  unfold DT G
  unfold DT at hip1 hip2 hiv2
  refine ⟨?_, ?_, ?_⟩
  · split_ifs with h1 h2
    · exact le_refl _
    · norm_num
    · by_contra hneg
      have hlt : s.p.1 + s.v.1 * 0.1 < 0 := lt_of_not_ge hneg
      have hv : ¬ s.v.1 < 0 := fun hv => h1 ⟨hlt, hv⟩
      have : 0 ≤ s.v.1 := le_of_not_lt hv
      linarith
  · split_ifs with h1 h2
    · norm_num
    · exact le_refl _
    · by_contra hgt
      have hlt : s.p.1 + s.v.1 * 0.1 > 49 := lt_of_not_ge hgt
      have hv : ¬ s.v.1 > 0 := fun hv => h2 ⟨hlt, hv⟩
      have : s.v.1 ≤ 0 := le_of_not_lt hv
      linarith
  · split_ifs with h1
    · exact le_refl _
    · by_contra hneg
      have hlt : s.p.2 + s.v.2 * 0.1 + 0.5 * -9.81 * 0.1 * 0.1 < 0 := lt_of_not_ge hneg
      have hv : ¬ s.v.2 + -9.81 * 0.1 < 0 := fun hv => h1 ⟨hlt, hv⟩
      have : 0 ≤ s.v.2 + -9.81 * 0.1 := le_of_not_lt hv
      norm_num at hlt this
      linarith

theorem in_room_run_steps (n : Nat) (s : State) (h : in_room s.p) :
    in_room (run_steps a_run n s).p := by
  induction n generalizing s with
  | zero => exact h
  | succ n ih => exact ih (update_pva s a_run) (in_room_update_pva s h)

theorem in_room_drawn_positions (fuel : Nat) (s : State) (h : in_room s.p) (q : ℚ × ℚ)
    (hq : q ∈ drawn_positions fuel s) : in_room q := by
  induction fuel generalizing s with
  | zero =>
    unfold drawn_positions at hq
    exact absurd hq (List.not_mem_nil q)
  | succ fuel ih =>
    unfold drawn_positions at hq
    split_ifs at hq with hg
    · rcases List.mem_cons.mp hq with e | hmem
      · rw [e]
        exact in_room_update_pva s h
      · exact ih (update_pva s a_run) (in_room_update_pva s h) hmem
    · exact absurd hq (List.not_mem_nil q)

theorem in_room_init : in_room init.p := by
  unfold in_room init P0 X_WALL
  norm_num

/-- C14: under `a = (0, -G)` with `G = 9.81` and `DT = 0.1`, for every velocity and every
pair of counters, a call entered with `0 ≤ p.x ≤ X_WALL` and `p.y ≥ 0` leaves a position
within the same bounds; hence every state of the run started at `P0 = (0, 0)`, and every
position the loop of `main` hands to `draw_grid`, lies in the room, with both coordinates
non-negative. -/
theorem c14_room_containment :
    (∀ s : State,
      0 ≤ s.p.1 ∧ s.p.1 ≤ (X_WALL : ℚ) ∧ 0 ≤ s.p.2 →
      0 ≤ (update_pva s a_run).p.1 ∧ (update_pva s a_run).p.1 ≤ (X_WALL : ℚ) ∧
        0 ≤ (update_pva s a_run).p.2) ∧
    (∀ n, in_room (run_steps a_run n init).p) ∧
    (∀ fuel q, q ∈ drawn_positions fuel init →
      0 ≤ q.1 ∧ q.1 ≤ (X_WALL : ℚ) ∧ 0 ≤ q.2) :=
  ⟨fun s h => in_room_update_pva s h,
    fun n => in_room_run_steps n init in_room_init,
    fun fuel q hq => in_room_drawn_positions fuel init in_room_init q hq⟩

/-- C14 (witness): the first frame of the run, `p = (1, 0.95095)`. -/
theorem c14_room_containment_witness :
    (0 ≤ init.p.1 ∧ init.p.1 ≤ (X_WALL : ℚ) ∧ 0 ≤ init.p.2) ∧
    (0 ≤ (update_pva init a_run).p.1 ∧ (update_pva init a_run).p.1 ≤ (X_WALL : ℚ) ∧
      0 ≤ (update_pva init a_run).p.2) ∧
    ((1, 0.95095) ∈ drawn_positions 1 init) ∧
    ((0 : ℚ) ≤ ((1, 0.95095) : ℚ × ℚ).1 ∧ ((1, 0.95095) : ℚ × ℚ).1 ≤ (X_WALL : ℚ) ∧
      (0 : ℚ) ≤ ((1, 0.95095) : ℚ × ℚ).2) :=
  ⟨by decide!, c14_room_containment.1 init (by decide!), by decide!,
    c14_room_containment.2.2 1 (1, 0.95095) (by decide!)⟩

end BouncingBall

namespace BouncingBall

/-! ## C12: a wall block and the floor block in one call -/

theorem all_strict_iff (a : ℚ × ℚ) (P : State → Bool) (n : Nat) (s : State) :
    all_strict a P n s = true ↔ ∀ k, k < n → P (run_steps a k s) = true := by
  induction n generalizing s with
  | zero =>
    constructor
    · intro _ k hk
      exact absurd hk (Nat.not_lt_zero k)
    · intro _
      rfl
  | succ n ih =>
    have e : all_strict a P (n + 1) s = (P s && all_strict a P n (update_pva s a)) := by
      show (P s && forceState (update_pva s a) (all_strict a P n)) = _
      rw [forceState_eq]
    rw [e, Bool.and_eq_true, ih]
    constructor
    · rintro ⟨h0, hrest⟩ k hk
      cases k with
      | zero => exact h0
      | succ j => exact hrest j (by omega)
    · intro h
      exact ⟨h 0 (by omega), fun k hk => h (k + 1) (by omega)⟩

/-- None of the 437 calls of the run of `main` enters both a wall block and the floor
block. -/
theorem run_never_wall_and_floor (k : Nat) (hk : k < 437) :
    ¬ wall_and_floor_fire (run_steps a_run k init) a_run := by
  have h : all_strict a_run (fun s => decide (¬ wall_and_floor_fire s a_run)) 437 init
      = true := by
    decide!
  have hk' := (all_strict_iff a_run _ 437 init).mp h k hk
  exact of_decide_eq_true hk'

/-- The 56th call of the run of `main` is entered with counter 190 and hits the far
wall. -/
theorem run_steps_55_far_wall :
    (run_steps a_run 55 init).num_bounces = 190 ∧
      far_wall_fires (run_steps a_run 55 init) a_run := by
  rw [← run_strict_eq]
  constructor <;> decide!

/-- C12 (counterexample): a ball in the corner `p = (0, 0)` of the room moving down and
to the left, `v = (-1, -1)`, under `a = (0, -G)`. The integration takes it to
`p = (-0.1, -0.14905)`, `v = (-1, -1.981)`, so the near-wall test and the floor test both
succeed in the same call. -/
theorem c12_counterexample_corner :
    (0 ≤ (⟨(0, 0), (-1, -1), 200, 0⟩ : State).p.1 ∧
      (⟨(0, 0), (-1, -1), 200, 0⟩ : State).p.1 ≤ (X_WALL : ℚ) ∧
      0 ≤ (⟨(0, 0), (-1, -1), 200, 0⟩ : State).p.2) ∧
    (integrate ⟨(0, 0), (-1, -1), 200, 0⟩ a_run).p = (-0.1, -0.14905) ∧
    (integrate ⟨(0, 0), (-1, -1), 200, 0⟩ a_run).v = (-1, -1.981) ∧
    near_wall_fires ⟨(0, 0), (-1, -1), 200, 0⟩ a_run ∧
    floor_fires ⟨(0, 0), (-1, -1), 200, 0⟩ a_run ∧
    (update_pva ⟨(0, 0), (-1, -1), 200, 0⟩ a_run).p = (0, 0) ∧
    (update_pva ⟨(0, 0), (-1, -1), 200, 0⟩ a_run).num_bounces = 199 := by
  refine ⟨?_, ?_, ?_, ?_, ?_, ?_, ?_⟩ <;> decide!

/-- C12 (amended): in the run of `main` (from `P0 = (0, 0)`, `V0 = (10, 10)`, under
`a = (0, -G)`), no call of `update_pva` made by the loop, that is no call entered with the
bounce counter `≥ 0`, enters both a wall block (near or far) and the floor block. -/
theorem c12_run_never_wall_and_floor (k : Nat)
    (hk : 0 ≤ (run_steps a_run k init).num_bounces) :
    ¬ ((near_wall_fires (run_steps a_run k init) a_run ∨
        far_wall_fires (run_steps a_run k init) a_run) ∧
      floor_fires (run_steps a_run k init) a_run) := by
  have hlt : k < 437 := by
    by_contra hge
    have h := run_steps_num_bounces_antitone a_run init 437 k (by omega)
    rw [run_steps_437_num_bounces] at h
    omega
  exact run_never_wall_and_floor k hlt

/-- C12 (witness): the 56th call of the run, which hits the far wall and not the
floor. -/
theorem c12_run_never_wall_and_floor_witness :
    0 ≤ (run_steps a_run 55 init).num_bounces ∧
    far_wall_fires (run_steps a_run 55 init) a_run ∧
    ¬ ((near_wall_fires (run_steps a_run 55 init) a_run ∨
        far_wall_fires (run_steps a_run 55 init) a_run) ∧
      floor_fires (run_steps a_run 55 init) a_run) :=
  ⟨by rw [run_steps_55_far_wall.1]; decide, run_steps_55_far_wall.2,
    c12_run_never_wall_and_floor 55 (by rw [run_steps_55_far_wall.1]; decide)⟩

end BouncingBall
